import Mathlib

/-!
Verification of the AVX-512 FLOPS benchmark (src/flops_benchmark.cpp).

The program is modelled shallowly:
* machine floating-point values are modelled as exact rationals;
* wall-clock time is an external input, so the elapsed duration is an
  explicit parameter of the timing-harness functions;
* the statement sequences of main and of run_multithread_benchmark are
  modelled as explicit action traces, translated statement by statement.
-/

namespace FlopsBenchmark

/-- Total iteration budget; constexpr ITERATIONS = 100000000 in the source. -/
def ITERATIONS : ℕ := 100000000

/-- Loop unroll factor; constexpr UNROLL = 10 in the source. -/
def UNROLL : ℕ := 10

/-- The two floating-point precisions the benchmark exercises. -/
inductive Precision
  | sp
  | dp
deriving DecidableEq

/-- Vector lanes of one 512-bit register: 16 floats or 8 doubles
(the source comment and the two literal constants 16 and 8). -/
def lanes : Precision → ℕ
  | .sp => 16
  | .dp => 8

/-- Scalar seed values of the ten single-precision accumulators
(the _mm512_set1_ps initializers of v0 .. v9). -/
def sp_seeds : Fin 10 → ℚ :=
  ![1, 9999/10000, 9998/10000, 9997/10000, 9996/10000,
    9995/10000, 9994/10000, 9993/10000, 9992/10000, 9991/10000]

/-- The multiplier broadcast by _mm512_set1_ps(1.0000001f), as an exact rational. -/
def sp_mul : ℚ := 10000001 / 10000000

/-- The addend broadcast by _mm512_set1_ps(0.0000001f), as an exact rational. -/
def sp_add : ℚ := 1 / 10000000

/-- Bank of ten 16-lane single-precision vector accumulators. -/
abbrev SPState : Type := Fin 10 → Fin 16 → ℚ

/-- Initial single-precision accumulator bank: each set1 broadcast puts the
same scalar seed in every lane of its vector. -/
def sp_init : SPState := fun k _ => sp_seeds k

/-- One loop step of benchmark_avx512_sp: a lanewise fused multiply-add
v_k = v_k * mul + add applied to each of the ten accumulators. -/
def sp_step (s : SPState) : SPState := fun k i => s k i * sp_mul + sp_add

/-- The single-precision accumulator bank after n loop steps. -/
def sp_run (n : ℕ) : SPState := sp_step^[n] sp_init

/-- Horizontal reduction _mm512_reduce_add_ps: sum of the 16 lanes. -/
def reduce_add_ps (v : Fin 16 → ℚ) : ℚ := ∑ i, v i

/-- The volatile sink of benchmark_avx512_sp: the ten horizontal
reductions added left to right, exactly as in the source. -/
def sp_sink (n : ℕ) : ℚ :=
  reduce_add_ps (sp_run n 0) + reduce_add_ps (sp_run n 1) +
  reduce_add_ps (sp_run n 2) + reduce_add_ps (sp_run n 3) +
  reduce_add_ps (sp_run n 4) + reduce_add_ps (sp_run n 5) +
  reduce_add_ps (sp_run n 6) + reduce_add_ps (sp_run n 7) +
  reduce_add_ps (sp_run n 8) + reduce_add_ps (sp_run n 9)

/-- Scalar seed values of the ten double-precision accumulators
(the _mm512_set1_pd initializers of v0 .. v9). -/
def dp_seeds : Fin 10 → ℚ :=
  ![1, 9999/10000, 9998/10000, 9997/10000, 9996/10000,
    9995/10000, 9994/10000, 9993/10000, 9992/10000, 9991/10000]

/-- The multiplier broadcast by _mm512_set1_pd(1.0000001), as an exact rational. -/
def dp_mul : ℚ := 10000001 / 10000000

/-- The addend broadcast by _mm512_set1_pd(0.0000001), as an exact rational. -/
def dp_add : ℚ := 1 / 10000000

/-- Bank of ten 8-lane double-precision vector accumulators. -/
abbrev DPState : Type := Fin 10 → Fin 8 → ℚ

/-- Initial double-precision accumulator bank. -/
def dp_init : DPState := fun k _ => dp_seeds k

/-- One loop step of benchmark_avx512_dp: a lanewise fused multiply-add
v_k = v_k * mul + add applied to each of the ten accumulators. -/
def dp_step (s : DPState) : DPState := fun k i => s k i * dp_mul + dp_add

/-- The double-precision accumulator bank after n loop steps. -/
def dp_run (n : ℕ) : DPState := dp_step^[n] dp_init

/-- Horizontal reduction _mm512_reduce_add_pd: sum of the 8 lanes. -/
def reduce_add_pd (v : Fin 8 → ℚ) : ℚ := ∑ i, v i

/-- The volatile sink of benchmark_avx512_dp. -/
def dp_sink (n : ℕ) : ℚ :=
  reduce_add_pd (dp_run n 0) + reduce_add_pd (dp_run n 1) +
  reduce_add_pd (dp_run n 2) + reduce_add_pd (dp_run n 3) +
  reduce_add_pd (dp_run n 4) + reduce_add_pd (dp_run n 5) +
  reduce_add_pd (dp_run n 6) + reduce_add_pd (dp_run n 7) +
  reduce_add_pd (dp_run n 8) + reduce_add_pd (dp_run n 9)

/-- Return value of benchmark_avx512_sp: flops = iterations * UNROLL * 16 * 2,
divided by the elapsed duration in seconds.  The duration comes from the
wall clock, so it is an explicit parameter here. -/
def benchmark_avx512_sp (iterations : ℕ) (elapsed : ℚ) : ℚ :=
  ((iterations : ℚ) * (UNROLL : ℚ) * 16 * 2) / elapsed

/-- Return value of benchmark_avx512_dp: flops = iterations * UNROLL * 8 * 2,
divided by the elapsed duration in seconds. -/
def benchmark_avx512_dp (iterations : ℕ) (elapsed : ℚ) : ℚ :=
  ((iterations : ℚ) * (UNROLL : ℚ) * 8 * 2) / elapsed

/-- The benchmark entry of the requested precision. -/
def throughput (p : Precision) (iterations : ℕ) (elapsed : ℚ) : ℚ :=
  match p with
  | .sp => benchmark_avx512_sp iterations elapsed
  | .dp => benchmark_avx512_dp iterations elapsed

/-- The C++ kernels return a plain double: every call produces an ordinary
value.  The result is wrapped in Option so that an error state (none) is
expressible in statements about the harness; the source contains no branch
on the elapsed duration, so the result is unconditionally some. -/
def benchmark_avx512_sp_result (iterations : ℕ) (elapsed : ℚ) : Option ℚ :=
  some (benchmark_avx512_sp iterations elapsed)

/-- Same as benchmark_avx512_sp_result, for the double-precision kernel. -/
def benchmark_avx512_dp_result (iterations : ℕ) (elapsed : ℚ) : Option ℚ :=
  some (benchmark_avx512_dp iterations elapsed)

/-- Modelled from the spec: the guarded timing harness the spec describes,
which detects a zero or negative elapsed duration and reports an error
state (none) instead of dividing.  No such guard exists in the source;
this definition exists only to be compared with the source's behavior. -/
def guarded_throughput (p : Precision) (iterations : ℕ) (elapsed : ℚ) : Option ℚ :=
  if elapsed ≤ 0 then none
  else some (((iterations : ℚ) * (UNROLL : ℚ) * (lanes p : ℚ) * 2) / elapsed)

/-- Per-worker iteration share: size_t iterations_per_thread = ITERATIONS / num_threads
(C++ size_t division is truncating natural-number division). -/
def iterations_per_thread (num_threads : ℕ) : ℕ := ITERATIONS / num_threads

/-- One observable step of run_multithread_benchmark. -/
inductive MTAction
  | spawn (p : Precision) (i : ℕ) (share : ℕ)
  | join (p : Precision) (i : ℕ)
  | sumResults (p : Precision)
  | printTotal (p : Precision)
deriving DecidableEq

/-- The thread-spawning loop of one precision phase: worker i is created
with the per-thread iteration share. -/
def spawn_seg (p : Precision) (num_threads : ℕ) : List MTAction :=
  (List.range num_threads).map (fun i => .spawn p i (iterations_per_thread num_threads))

/-- The join loop of one precision phase: for (auto and t : threads) t.join(). -/
def join_seg (p : Precision) (num_threads : ℕ) : List MTAction :=
  (List.range num_threads).map (fun i => .join p i)

/-- Action trace of run_multithread_benchmark, statement by statement:
spawn all SP workers, join them, sum results_sp; then spawn all DP
workers, join them, sum results_dp; then print both totals. -/
def run_multithread_benchmark (num_threads : ℕ) : List MTAction :=
  spawn_seg .sp num_threads ++ join_seg .sp num_threads ++ [.sumResults .sp] ++
  spawn_seg .dp num_threads ++ join_seg .dp num_threads ++
  [.sumResults .dp, .printTotal .sp, .printTotal .dp]

/-- The result vector std::vector of double (num_threads):
value-constructed with num_threads zero-initialized slots. -/
def results_init (num_threads : ℕ) : List ℚ := List.replicate num_threads 0

/-- The slot index a worker writes: results_sp[i] for the worker whose
captured id is i. -/
def worker_slot (i : ℕ) : ℕ := i

/-- Worker i storing its throughput: results[i] = v. -/
def write_result (rs : List ℚ) (i : ℕ) (v : ℚ) : List ℚ := rs.set (worker_slot i) v

/-- The result vector once every worker has written its own slot.  The
workers run concurrently, but each writes a distinct slot, so the final
vector equals this sequential linearization of the writes. -/
def final_results (num_threads : ℕ) (thr : ℕ → ℚ) : List ℚ :=
  (List.range num_threads).foldl (fun rs i => write_result rs i (thr i))
    (results_init num_threads)

/-- The aggregation loop: double total = 0; for (double r : results) total += r. -/
def aggregate (rs : List ℚ) : ℚ := rs.foldl (fun total r => total + r) 0

/-- One observable step of main. -/
inductive MainAction
  | printBanner
  | printParams
  | printSingleHeader
  | checkHardwareExit
  | benchSingle (p : Precision) (iterations : ℕ)
  | printGFlops (p : Precision)
  | printHWThreads
  | runMulti (num_threads : ℕ)
  | printFooter
deriving DecidableEq

/-- Action trace of main, statement by statement.  The constructor
checkHardwareExit stands for the fail-fast capability check the spec
demands; main contains no such statement, so the trace never emits it. -/
def main_trace : List MainAction :=
  [.printBanner, .printParams, .printSingleHeader,
   .benchSingle .sp ITERATIONS, .printGFlops .sp,
   .benchSingle .dp ITERATIONS, .printGFlops .dp,
   .printHWThreads,
   .runMulti 4, .runMulti 8, .runMulti 16,
   .printFooter]

/-- main ends with return 0, unconditionally. -/
def main_exit_code : ℕ := 0

/-- The printed throughput value: sp_flops / 1e9 in the source. -/
def printed_gflops (x : ℚ) : ℚ := x / 1000000000

/-- std::setprecision(2): two decimal places on every printed throughput. -/
def output_decimals : ℕ := 2

/-- Largest finite IEEE-754 binary32 value, (2^24 - 1) * 2^104, exact. -/
def fp32_max : ℚ := (2 ^ 24 - 1) * 2 ^ 104

/-- Largest finite IEEE-754 binary64 value, (2^53 - 1) * 2^971, exact. -/
def fp64_max : ℚ := (2 ^ 53 - 1) * 2 ^ 971

/-- The scalar recurrence every accumulator lane follows (both precisions
use the same multiplier and addend constants). -/
def scalar_update (x : ℚ) : ℚ := x * sp_mul + sp_add

/- ---------------------------------------------------------------- -/
/- Helper lemmas                                                    -/
/- ---------------------------------------------------------------- -/

theorem sum_univ_ten_eq (f : Fin 10 → ℚ) :
    ∑ i, f i = f 0 + f 1 + f 2 + f 3 + f 4 + f 5 + f 6 + f 7 + f 8 + f 9 := by
  rw [Fin.sum_univ_castSucc, Fin.sum_univ_castSucc, Fin.sum_univ_eight]
  rfl

theorem foldl_add_eq (l : List ℚ) (a : ℚ) :
    l.foldl (fun total r => total + r) a = a + l.sum := by
  induction l generalizing a with
  | nil => simp
  | cons x xs ih => simp [List.foldl_cons, ih, List.sum_cons]; ring

theorem set_append_length (a b : List ℚ) (v : ℚ) :
    (a ++ b).set a.length v = a ++ b.set 0 v := by
  induction a with
  | nil => rfl
  | cons x xs ih =>
      show x :: (xs ++ b).set xs.length v = x :: (xs ++ b.set 0 v)
      rw [ih]

theorem fold_write_range (thr : ℕ → ℚ) :
    ∀ n M : ℕ, n ≤ M →
      (List.range n).foldl (fun rs i => write_result rs i (thr i))
          (List.replicate M (0 : ℚ)) =
        ((List.range n).map thr) ++ List.replicate (M - n) 0 := by
  intro n
  induction n with
  | zero => intro M _; simp
  | succ n ih =>
      intro M hM
      have hn : n ≤ M := Nat.le_of_succ_le hM
      rw [List.range_succ, List.foldl_append, ih M hn]
      simp only [List.foldl_cons, List.foldl_nil, write_result, worker_slot]
      have hlen : (List.map thr (List.range n)).length = n := by simp
      have key := set_append_length (List.map thr (List.range n))
        (List.replicate (M - n) (0 : ℚ)) (thr n)
      rw [hlen] at key
      rw [key]
      have hsub : M - n = (M - (n + 1)) + 1 := by omega
      rw [hsub, List.replicate_succ]
      simp

theorem final_results_eq (num_threads : ℕ) (thr : ℕ → ℚ) :
    final_results num_threads thr = (List.range num_threads).map thr := by
  have h := fold_write_range thr num_threads num_threads (le_refl _)
  simp only [final_results, results_init]
  rw [h]
  simp

theorem spawn_share_eq (num_threads : ℕ) (p : Precision) (i s : ℕ)
    (h : MTAction.spawn p i s ∈ run_multithread_benchmark num_threads) :
    s = iterations_per_thread num_threads := by
  simp only [run_multithread_benchmark, spawn_seg, join_seg, List.mem_append,
    List.mem_map, List.mem_range, List.mem_cons, List.mem_singleton,
    List.not_mem_nil] at h
  rcases h with ((((⟨a, _, ha⟩ | ⟨a, _, ha⟩) | ha) | ⟨a, _, ha⟩) | ⟨a, _, ha⟩) | ha
  · exact (MTAction.spawn.injEq _ _ _ _ _ _).mp ha.symm |>.2.2
  · exact absurd ha (by simp)
  · exact absurd ha (by simp)
  · exact (MTAction.spawn.injEq _ _ _ _ _ _).mp ha.symm |>.2.2
  · exact absurd ha (by simp)
  · rcases ha with ha | ha | ha <;> exact absurd ha (by simp)

/- ---------------------------------------------------------------- -/
/- C1                                                               -/
/- ---------------------------------------------------------------- -/

/-- C1: for every iteration_count > 0 and each precision, the throughput
returned by the single-kernel benchmark equals
(iteration_count * 10 * lanes(precision) * 2) / elapsed_seconds, and the
lane constant is exactly 16 for single precision and 8 for double. -/
theorem C1_throughput_formula (it : ℕ) (e : ℚ) (hit : 0 < it) (p : Precision) :
    throughput p it e = ((it : ℚ) * 10 * (lanes p : ℚ) * 2) / e ∧
    lanes Precision.sp = 16 ∧ lanes Precision.dp = 8 := by
  refine ⟨?_, rfl, rfl⟩
  cases p <;>
    simp [throughput, benchmark_avx512_sp, benchmark_avx512_dp, UNROLL, lanes]

/-- C1 witness: 1000 iterations of the single-precision kernel over an
injected duration of 0.0001 seconds report exactly 3.2e9 operations per
second. -/
theorem C1_throughput_formula_witness :
    0 < 1000 ∧
    throughput Precision.sp 1000 (1 / 10000) =
      ((1000 : ℚ) * 10 * (lanes Precision.sp : ℚ) * 2) / (1 / 10000) ∧
    ((1000 : ℚ) * 10 * (lanes Precision.sp : ℚ) * 2) / ((1 : ℚ) / 10000) =
      3200000000 := by
  refine ⟨by norm_num,
    (C1_throughput_formula 1000 (1 / 10000) (by norm_num) Precision.sp).1,
    by norm_num [lanes]⟩

/- ---------------------------------------------------------------- -/
/- C2                                                               -/
/- ---------------------------------------------------------------- -/

/-- C2: every spawned worker receives exactly ITERATIONS / N iterations
(truncating division); the dropped remainder is ITERATIONS - N * (ITERATIONS / N),
which is ITERATIONS mod N; and for N = 4, 8, 16 the per-worker shares are
25000000, 12500000 and 6250000. -/
theorem C2_iteration_split :
    (∀ (num_threads i s : ℕ) (p : Precision),
        MTAction.spawn p i s ∈ run_multithread_benchmark num_threads →
        s = iterations_per_thread num_threads) ∧
    (∀ num_threads : ℕ,
        num_threads * iterations_per_thread num_threads ≤ ITERATIONS ∧
        ITERATIONS - num_threads * iterations_per_thread num_threads =
          ITERATIONS % num_threads) ∧
    iterations_per_thread 4 = 25000000 ∧
    iterations_per_thread 8 = 12500000 ∧
    iterations_per_thread 16 = 6250000 := by
  refine ⟨fun N i s p h => spawn_share_eq N p i s h, fun N => ?_, by decide, by decide, by decide⟩
  have h := Nat.div_add_mod ITERATIONS N
  simp only [iterations_per_thread]
  omega

/-- C2 witness: in the 4-thread round the worker with id 0 is spawned with
share 25000000, and that share is the integer quotient ITERATIONS / 4. -/
theorem C2_iteration_split_witness :
    MTAction.spawn Precision.sp 0 25000000 ∈ run_multithread_benchmark 4 ∧
    25000000 = iterations_per_thread 4 := by
  constructor
  · decide
  · exact C2_iteration_split.1 4 0 25000000 Precision.sp (by decide)

/- ---------------------------------------------------------------- -/
/- C4                                                               -/
/- ---------------------------------------------------------------- -/

/-- C4: the aggregate total throughput of a round with N workers equals the
sum of the N per-worker throughputs, and aggregation is an order-independent
sum: permuting the worker results leaves the aggregate unchanged. -/
theorem C4_aggregate_sum (num_threads : ℕ) (thr : ℕ → ℚ) :
    aggregate (final_results num_threads thr) =
      ((List.range num_threads).map thr).sum ∧
    ∀ l l' : List ℚ, l.Perm l' → aggregate l = aggregate l' := by
  constructor
  · rw [final_results_eq, aggregate, foldl_add_eq]
    ring
  · intro l l' hp
    rw [aggregate, aggregate, foldl_add_eq, foldl_add_eq, hp.sum_eq]

/-- C4 witness: four workers reporting 1e9, 1.1e9, 0.9e9 and 1e9 aggregate
to exactly 4e9, and a transposed pair of results aggregates identically. -/
theorem C4_aggregate_sum_witness :
    aggregate (final_results 4
        (fun i => [(1000000000 : ℚ), 1100000000, 900000000, 1000000000].getD i 0)) =
      ((List.range 4).map
        (fun i => [(1000000000 : ℚ), 1100000000, 900000000, 1000000000].getD i 0)).sum ∧
    aggregate [(1 : ℚ), 2] = aggregate [2, 1] ∧
    ((List.range 4).map
        (fun i => [(1000000000 : ℚ), 1100000000, 900000000, 1000000000].getD i 0)).sum =
      4000000000 := by
  refine ⟨(C4_aggregate_sum 4 _).1,
    (C4_aggregate_sum 4 (fun _ => (0 : ℚ))).2 [1, 2] [2, 1] (List.Perm.swap 2 1 []),
    ?_⟩
  simp [List.range_succ]
  norm_num

/- ---------------------------------------------------------------- -/
/- C3                                                               -/
/- ---------------------------------------------------------------- -/

/-- C3 counterexample: at an injected elapsed duration of exactly 0 the
single-precision harness still returns an ordinary value (some), whereas
the guarded harness the claim describes reports an error state (none); the
source contains no guard at all, so the two disagree. -/
theorem C3_guard_counterexample :
    benchmark_avx512_sp_result 1000 0 ≠ guarded_throughput Precision.sp 1000 0 ∧
    (benchmark_avx512_sp_result 1000 0).isSome = true ∧
    guarded_throughput Precision.sp 1000 0 = none := by
  refine ⟨?_, rfl, ?_⟩
  · simp [benchmark_avx512_sp_result, guarded_throughput]
  · simp [guarded_throughput]

/-- C3 amended: the throughput computation performs its division
unconditionally; for a zero or negative elapsed duration no error state or
sentinel is produced, the quotient is returned as an ordinary value (in the
C++ doubles this silently propagates infinity), and the session continues
only because no exception is ever thrown, main being a straight line. -/
theorem C3_no_guard_amended (it : ℕ) (e : ℚ) (he : e ≤ 0) :
    benchmark_avx512_sp_result it e =
      some (((it : ℚ) * (UNROLL : ℚ) * 16 * 2) / e) ∧
    benchmark_avx512_dp_result it e =
      some (((it : ℚ) * (UNROLL : ℚ) * 8 * 2) / e) ∧
    guarded_throughput Precision.sp it e = none ∧
    MainAction.benchSingle Precision.dp ITERATIONS ∈ main_trace := by
  refine ⟨rfl, rfl, ?_, by decide⟩
  simp [guarded_throughput, he]

/-- C3 amended witness: the concrete degenerate duration 0 with 1000
iterations yields the unguarded quotient as an ordinary value. -/
theorem C3_no_guard_amended_witness :
    (0 : ℚ) ≤ 0 ∧
    benchmark_avx512_sp_result 1000 0 =
      some (((1000 : ℚ) * (UNROLL : ℚ) * 16 * 2) / 0) :=
  ⟨le_refl 0, (C3_no_guard_amended 1000 0 (le_refl 0)).1⟩

/- ---------------------------------------------------------------- -/
/- C5                                                               -/
/- ---------------------------------------------------------------- -/

/-- C5: each loop step updates every lane of each of the ten accumulators
as accumulator * multiplier + addend, with multiplier exactly the rational
value 1.0000001 and addend exactly 0.0000001, for both precisions; and
after n steps the sink value is the sum of the ten horizontal reductions,
that is, the sum of all lanes of all ten accumulators. -/
theorem C5_kernel_structure (n : ℕ) :
    (∀ (k : Fin 10) (i : Fin 16),
        sp_run (n + 1) k i = sp_run n k i * sp_mul + sp_add) ∧
    (∀ (k : Fin 10) (i : Fin 8),
        dp_run (n + 1) k i = dp_run n k i * dp_mul + dp_add) ∧
    sp_mul = 10000001 / 10000000 ∧ sp_add = 1 / 10000000 ∧
    dp_mul = 10000001 / 10000000 ∧ dp_add = 1 / 10000000 ∧
    sp_sink n = ∑ k : Fin 10, ∑ i : Fin 16, sp_run n k i ∧
    dp_sink n = ∑ k : Fin 10, ∑ i : Fin 8, dp_run n k i := by
  refine ⟨?_, ?_, rfl, rfl, rfl, rfl, ?_, ?_⟩
  · intro k i
    rw [sp_run, sp_run, Function.iterate_succ_apply']
    rfl
  · intro k i
    rw [dp_run, dp_run, Function.iterate_succ_apply']
    rfl
  · rw [sum_univ_ten_eq fun k => ∑ i : Fin 16, sp_run n k i]
    rfl
  · rw [sum_univ_ten_eq fun k => ∑ i : Fin 8, dp_run n k i]
    rfl

/- ---------------------------------------------------------------- -/
/- C6                                                               -/
/- ---------------------------------------------------------------- -/

/-- C6 counterexample: main contains no hardware capability check at all —
the fail-fast diagnostic-and-exit step never occurs in its trace — and the
exit status is unconditionally 0, never non-zero. -/
theorem C6_no_hw_check_counterexample :
    MainAction.checkHardwareExit ∉ main_trace ∧ main_exit_code = 0 := by
  decide

/-- C6 amended: the program performs no vector-instruction-set detection:
main runs every measurement phase unconditionally, starting with the
banner and the full single-precision benchmark, and always returns exit
status 0.  On a processor lacking 512-bit vector FMA the process would
fault on the first vector instruction inside the kernel rather than print
a diagnostic and exit non-zero. -/
theorem C6_no_hw_check_amended :
    main_exit_code = 0 ∧
    MainAction.checkHardwareExit ∉ main_trace ∧
    MainAction.benchSingle Precision.sp ITERATIONS ∈ main_trace ∧
    main_trace.head? = some MainAction.printBanner := by
  decide

/- ---------------------------------------------------------------- -/
/- C7                                                               -/
/- ---------------------------------------------------------------- -/

/-- C7: main is a fixed linear sequence: the single-precision then the
double-precision single-thread benchmark, each with the full iteration
budget and each throughput printed as the value divided by 1e9 to two
decimal places; then the hardware thread count; then the multi-thread
rounds at exactly 4, 8 and 16 threads in that order, each round printing
the total throughput of both precisions. -/
theorem C7_report_order :
    main_trace =
      [MainAction.printBanner, MainAction.printParams, MainAction.printSingleHeader,
       MainAction.benchSingle Precision.sp ITERATIONS, MainAction.printGFlops Precision.sp,
       MainAction.benchSingle Precision.dp ITERATIONS, MainAction.printGFlops Precision.dp,
       MainAction.printHWThreads,
       MainAction.runMulti 4, MainAction.runMulti 8, MainAction.runMulti 16,
       MainAction.printFooter] ∧
    (∀ x : ℚ, printed_gflops x = x / 1000000000) ∧
    output_decimals = 2 ∧
    ITERATIONS = 100000000 ∧
    ∀ num_threads : ℕ,
      MTAction.printTotal Precision.sp ∈ run_multithread_benchmark num_threads ∧
      MTAction.printTotal Precision.dp ∈ run_multithread_benchmark num_threads := by
  refine ⟨rfl, fun x => rfl, rfl, rfl, fun N => ⟨?_, ?_⟩⟩ <;>
    simp [run_multithread_benchmark]

/- ---------------------------------------------------------------- -/
/- C9                                                               -/
/- ---------------------------------------------------------------- -/

/-- C9: the result vector is value-constructed with exactly N slots before
any worker starts; worker i writes only the in-bounds slot i, distinct
workers write distinct slots; and in the round's trace the summation of a
precision's results happens strictly after every join of that precision:
every join of that precision lies in the prefix before the sum and none in
the suffix after it. -/
theorem C9_result_slots (num_threads : ℕ) (p : Precision) :
    (results_init num_threads).length = num_threads ∧
    (∀ i j : ℕ, i ≠ j → worker_slot i ≠ worker_slot j) ∧
    (∀ i : ℕ, i < num_threads → worker_slot i < num_threads) ∧
    ∃ pre post,
      run_multithread_benchmark num_threads = pre ++ MTAction.sumResults p :: post ∧
      (∀ i : ℕ, i < num_threads → MTAction.join p i ∈ pre) ∧
      (∀ i : ℕ, MTAction.join p i ∉ post) := by
  refine ⟨by simp [results_init], fun i j h => h, fun i h => h, ?_⟩
  cases p
  · refine ⟨spawn_seg .sp num_threads ++ join_seg .sp num_threads,
      spawn_seg .dp num_threads ++ join_seg .dp num_threads ++
        [.sumResults .dp, .printTotal .sp, .printTotal .dp], ?_, ?_, ?_⟩
    · simp [run_multithread_benchmark, List.append_assoc]
    · intro i h
      simp only [join_seg, List.mem_append, List.mem_map, List.mem_range]
      exact Or.inr ⟨i, h, rfl⟩
    · intro i
      simp [spawn_seg, join_seg]
  · refine ⟨spawn_seg .sp num_threads ++ join_seg .sp num_threads ++
        [.sumResults .sp] ++ spawn_seg .dp num_threads ++ join_seg .dp num_threads,
      [.printTotal .sp, .printTotal .dp], ?_, ?_, ?_⟩
    · simp [run_multithread_benchmark, List.append_assoc]
    · intro i h
      simp only [join_seg, List.mem_append, List.mem_map, List.mem_range]
      exact Or.inr ⟨i, h, rfl⟩
    · intro i
      simp

/-- C9 witness: the 4-thread round, single precision: four slots, worker
slots 1 and 2 distinct, slot 3 in bounds, and the join-before-sum
decomposition of the trace. -/
theorem C9_result_slots_witness :
    (results_init 4).length = 4 ∧
    worker_slot 1 ≠ worker_slot 2 ∧
    worker_slot 3 < 4 ∧
    ∃ pre post,
      run_multithread_benchmark 4 = pre ++ MTAction.sumResults Precision.sp :: post ∧
      (∀ i : ℕ, i < 4 → MTAction.join Precision.sp i ∈ pre) ∧
      (∀ i : ℕ, MTAction.join Precision.sp i ∉ post) := by
  obtain ⟨h1, h2, h3, h4⟩ := C9_result_slots 4 Precision.sp
  exact ⟨h1, h2 1 2 (by decide), h3 3 (by decide), h4⟩

/- ---------------------------------------------------------------- -/
/- C10                                                              -/
/- ---------------------------------------------------------------- -/

/-- C10: the round's trace splits into a prefix holding the entire
single-precision phase — every SP spawn, every SP join, and the SP sum —
and a suffix; no double-precision worker is spawned anywhere in that
prefix; and every spawn of either precision carries the one per-thread
share ITERATIONS / N computed at the start of the round. -/
theorem C10_sp_before_dp (num_threads : ℕ) :
    ∃ pre post,
      run_multithread_benchmark num_threads = pre ++ post ∧
      (∀ i : ℕ, i < num_threads →
        MTAction.spawn Precision.sp i (iterations_per_thread num_threads) ∈ pre ∧
        MTAction.join Precision.sp i ∈ pre) ∧
      MTAction.sumResults Precision.sp ∈ pre ∧
      (∀ a ∈ pre, ∀ i s : ℕ, a ≠ MTAction.spawn Precision.dp i s) ∧
      (∀ (p : Precision) (i s : ℕ),
        MTAction.spawn p i s ∈ run_multithread_benchmark num_threads →
        s = iterations_per_thread num_threads) := by
  refine ⟨spawn_seg .sp num_threads ++ join_seg .sp num_threads ++ [.sumResults .sp],
    spawn_seg .dp num_threads ++ join_seg .dp num_threads ++
      [.sumResults .dp, .printTotal .sp, .printTotal .dp], ?_, ?_, ?_, ?_,
    fun p i s h => spawn_share_eq num_threads p i s h⟩
  · simp [run_multithread_benchmark, List.append_assoc]
  · intro i h
    constructor
    · simp only [spawn_seg, List.mem_append, List.mem_map, List.mem_range]
      exact Or.inl (Or.inl ⟨i, h, rfl⟩)
    · simp only [join_seg, List.mem_append, List.mem_map, List.mem_range]
      exact Or.inl (Or.inr ⟨i, h, rfl⟩)
  · simp
  · intro a ha i s
    simp only [spawn_seg, join_seg, List.mem_append, List.mem_map,
      List.mem_range, List.mem_singleton] at ha
    rcases ha with (⟨b, _, rfl⟩ | ⟨b, _, rfl⟩) | rfl <;> simp

/-- C10 witness: the 4-thread round: the single-precision phase, its spawn
with share ITERATIONS / 4, its joins and its sum all precede the suffix,
which alone holds the double-precision spawns. -/
theorem C10_sp_before_dp_witness :
    ∃ pre post,
      run_multithread_benchmark 4 = pre ++ post ∧
      MTAction.spawn Precision.sp 0 (iterations_per_thread 4) ∈ pre ∧
      MTAction.join Precision.sp 0 ∈ pre ∧
      MTAction.sumResults Precision.sp ∈ pre ∧
      (∀ a ∈ pre, ∀ i s : ℕ, a ≠ MTAction.spawn Precision.dp i s) := by
  obtain ⟨pre, post, h1, h2, h3, h4, _⟩ := C10_sp_before_dp 4
  exact ⟨pre, post, h1, (h2 0 (by decide)).1, (h2 0 (by decide)).2, h3, h4⟩

/- ---------------------------------------------------------------- -/
/- C8                                                               -/
/- ---------------------------------------------------------------- -/

theorem scalar_update_iterate (x : ℚ) (n : ℕ) :
    scalar_update^[n] x = (x + 1) * sp_mul ^ n - 1 := by
  induction n with
  | zero => simp
  | succ n ih =>
      rw [Function.iterate_succ_apply', ih]
      simp only [scalar_update, sp_mul, sp_add, pow_succ]
      ring

theorem sp_run_eq_scalar (n : ℕ) (k : Fin 10) (i : Fin 16) :
    sp_run n k i = scalar_update^[n] (sp_seeds k) := by
  induction n with
  | zero => rfl
  | succ n ih =>
      have h1 : sp_run (n + 1) = sp_step (sp_run n) := by
        rw [sp_run, sp_run, Function.iterate_succ_apply']
      rw [h1, Function.iterate_succ_apply', ← ih]
      rfl

theorem dp_run_eq_scalar (n : ℕ) (k : Fin 10) (i : Fin 8) :
    dp_run n k i = scalar_update^[n] (dp_seeds k) := by
  induction n with
  | zero => rfl
  | succ n ih =>
      have h1 : dp_run (n + 1) = dp_step (dp_run n) := by
        rw [dp_run, dp_run, Function.iterate_succ_apply']
      rw [h1, Function.iterate_succ_apply', ← ih]
      rfl

theorem pow_mul_one_sub_le (t : ℚ) (ht : 0 ≤ t) (n : ℕ) :
    (1 + t) ^ n * (1 - n * t) ≤ 1 := by
  induction n with
  | zero => norm_num
  | succ n ih =>
      have hP : (0 : ℚ) ≤ (1 + t) ^ n := pow_nonneg (by linarith) n
      have hn : (0 : ℚ) ≤ (n : ℚ) := Nat.cast_nonneg n
      push_cast
      rw [pow_succ]
      push_cast at ih
      nlinarith [mul_nonneg hP (mul_nonneg ht ht),
        mul_nonneg (mul_nonneg hn hP) (mul_nonneg ht ht)]

theorem sp_mul_pow_chunk : sp_mul ^ 1000000 ≤ 10 / 9 := by
  have h := pow_mul_one_sub_le (1 / 10000000) (by norm_num) 1000000
  have hb : (1 : ℚ) + 1 / 10000000 = sp_mul := by norm_num [sp_mul]
  rw [hb] at h
  have h2 : ((1000000 : ℕ) : ℚ) * (1 / 10000000) = 1 / 10 := by norm_num
  rw [h2] at h
  nlinarith [h]

theorem sp_mul_pow_budget : sp_mul ^ ITERATIONS ≤ (10 / 9 : ℚ) ^ 100 := by
  have h1 : sp_mul ^ ITERATIONS = (sp_mul ^ 1000000) ^ 100 := by
    rw [← pow_mul]
    norm_num [ITERATIONS]
  rw [h1]
  have h2 : (0 : ℚ) ≤ sp_mul ^ 1000000 := pow_nonneg (by norm_num [sp_mul]) 1000000
  exact pow_le_pow_left₀ h2 sp_mul_pow_chunk 100

theorem sp_mul_pow_mono (n : ℕ) (h : n ≤ ITERATIONS) :
    sp_mul ^ n ≤ sp_mul ^ ITERATIONS :=
  pow_le_pow_right₀ (by norm_num [sp_mul]) h

theorem one_le_sp_mul_pow (n : ℕ) : (1 : ℚ) ≤ sp_mul ^ n := by
  calc (1 : ℚ) = sp_mul ^ 0 := (pow_zero _).symm
  _ ≤ sp_mul ^ n := pow_le_pow_right₀ (by norm_num [sp_mul]) (Nat.zero_le n)

theorem sp_seeds_bounds (k : Fin 10) : 9991 / 10000 ≤ sp_seeds k ∧ sp_seeds k ≤ 1 := by
  fin_cases k <;> exact ⟨by norm_num [sp_seeds], by norm_num [sp_seeds]⟩

theorem dp_seeds_bounds (k : Fin 10) : 9991 / 10000 ≤ dp_seeds k ∧ dp_seeds k ≤ 1 := by
  fin_cases k <;> exact ⟨by norm_num [dp_seeds], by norm_num [dp_seeds]⟩

/-- C8: under the program's fixed iteration budget every accumulator lane of
both kernels evolves deterministically from its seed by the recurrence
x * 1.0000001 + 0.0000001, and at every intermediate step its value stays
nonnegative and far below the largest finite float of its precision: the
computation never overflows. -/
theorem C8_no_overflow (n : ℕ) (hn : n ≤ ITERATIONS) :
    (∀ (k : Fin 10) (i : Fin 16), 0 ≤ sp_run n k i ∧ sp_run n k i ≤ fp32_max) ∧
    (∀ (k : Fin 10) (i : Fin 8), 0 ≤ dp_run n k i ∧ dp_run n k i ≤ fp64_max) := by
  have hm1 : (1 : ℚ) ≤ sp_mul ^ n := one_le_sp_mul_pow n
  have hm2 : sp_mul ^ n ≤ (10 / 9 : ℚ) ^ 100 :=
    le_trans (sp_mul_pow_mono n hn) sp_mul_pow_budget
  have h100 : ((10 : ℚ) / 9) ^ 100 ≤ 40000 := by norm_num
  have hub : sp_mul ^ n ≤ 40000 := le_trans hm2 h100
  constructor
  · intro k i
    obtain ⟨hs1, hs2⟩ := sp_seeds_bounds k
    rw [sp_run_eq_scalar, scalar_update_iterate]
    constructor
    · have h2 : (1 : ℚ) * 1 ≤ (sp_seeds k + 1) * sp_mul ^ n :=
        mul_le_mul (by linarith) hm1 (by norm_num) (by linarith)
      linarith
    · have h2 : (sp_seeds k + 1) * sp_mul ^ n ≤ 2 * 40000 :=
        mul_le_mul (by linarith) hub (by linarith) (by norm_num)
      have h3 : (80000 : ℚ) ≤ fp32_max := by norm_num [fp32_max]
      linarith
  · intro k i
    obtain ⟨hs1, hs2⟩ := dp_seeds_bounds k
    rw [dp_run_eq_scalar, scalar_update_iterate]
    constructor
    · have h2 : (1 : ℚ) * 1 ≤ (dp_seeds k + 1) * sp_mul ^ n :=
        mul_le_mul (by linarith) hm1 (by norm_num) (by linarith)
      linarith
    · have h2 : (dp_seeds k + 1) * sp_mul ^ n ≤ 2 * 40000 :=
        mul_le_mul (by linarith) hub (by linarith) (by norm_num)
      have h3 : (80000 : ℚ) ≤ fp64_max := by norm_num [fp64_max]
      linarith

/-- C8 witness: at step 0 (which is within the budget) the first lane of
the first accumulator is within the representable range. -/
theorem C8_no_overflow_witness :
    0 ≤ ITERATIONS ∧
    (0 ≤ sp_run 0 0 0 ∧ sp_run 0 0 0 ≤ fp32_max) ∧
    (0 ≤ dp_run 0 0 0 ∧ dp_run 0 0 0 ≤ fp64_max) :=
  ⟨Nat.zero_le _, (C8_no_overflow 0 (Nat.zero_le _)).1 0 0,
    (C8_no_overflow 0 (Nat.zero_le _)).2 0 0⟩

end FlopsBenchmark
